import Mathlib

/-!
Verification of the Image-to-Pencil-Sketch repository.

Part 1 embeds the client-side shell (`src/src/App.jsx`): the file
validation, the file-selection handler, and the convert handler, as pure
state-transition functions over an explicit `AppState`.

Part 2 embeds the sketch pipeline. The pipeline's Python source is not in
the repository snapshot; its definitions are modelled from the spec
(each such definition's doc comment says so).
-/

/-- Metadata of a candidate input file as the browser reports it:
declared media type and byte length (`file.type`, `file.size`). -/
structure FileMeta where
  type : String
  size : Nat
deriving DecidableEq, Repr

/-- Constant `allowedTypes` from `validateFile` in `App.jsx`. -/
def allowedTypes : List String := ["image/jpeg", "image/png", "image/webp"]

/-- Constant `maxSize` from `validateFile` in `App.jsx`: 10 * 1024 * 1024 bytes. -/
def maxSize : Nat := 10 * 1024 * 1024

/-- Function `validateFile` from `App.jsx`: returns an error message for a
disallowed media type or an oversize file, `none` when the file is
acceptable. -/
def validateFile (f : FileMeta) : Option String :=
  if ¬ (allowedTypes.contains f.type) then
    some "Please choose a JPG, PNG, or WEBP image."
  else if f.size > maxSize then
    some "File too large. Maximum size is 10MB."
  else
    none

/-- The React component state of `App.jsx` that the claims touch:
`file`, `previewURL`, `resultURL`, `loading`, `error`. -/
structure AppState where
  file : Option FileMeta
  previewURL : String
  resultURL : String
  loading : Bool
  error : String
deriving DecidableEq, Repr

/-- Function `handleFileSelect` from `App.jsx`. The object URL that
`URL.createObjectURL` would mint for the selected file is passed in as
`objURL`. A missing selection returns the state unchanged; a selection
failing validation only sets the error message; a valid selection clears
the error, stores the file, sets the fresh preview URL and clears the
previous result URL. -/
def handleFileSelect (s : AppState) (sel : Option FileMeta) (objURL : String) :
    AppState :=
  match sel with
  | none => s
  | some f =>
    match validateFile f with
    | some msg => { s with error := msg }
    | none =>
      { s with error := "", file := some f, previewURL := objURL,
               resultURL := "" }

/-- Outcome of the `fetch` in `onConvert`: a successful response whose
blob gets an object URL, a non-ok HTTP response with an optional parsed
`detail` field, or a thrown error with an optional message. -/
inductive FetchOutcome where
  | ok (blobURL : String)
  | httpError (detail : Option String)
  | thrown (msg : Option String)
deriving DecidableEq, Repr

/-- Function `onConvert` from `App.jsx`, as a function of the current state and of
the outcome the network would produce. Returns the new state paired with
a flag telling whether the conversion request was actually issued.
With no file selected it returns at once, issuing no request. Otherwise
it sets loading, clears error and result, performs the request, and on
each outcome lands with `loading := false` (the `finally` block): a
success stores the result object URL; a non-ok response surfaces its
`detail` (or the default message); a thrown error surfaces its message
(or the default message). -/
def onConvert (s : AppState) (outcome : FetchOutcome) : AppState × Bool :=
  match s.file with
  | none => (s, false)
  | some _ =>
    let s1 := { s with loading := true, error := "", resultURL := "" }
    match outcome with
    | .ok blobURL =>
        ({ s1 with resultURL := blobURL, loading := false }, true)
    | .httpError detail =>
        ({ s1 with
             error := detail.getD "Conversion failed. Please try again.",
             loading := false }, true)
    | .thrown msg =>
        ({ s1 with
             error := msg.getD
               "An unexpected error occurred during conversion.",
             loading := false }, true)

/-- C1: caller-side validation accepts a file iff its declared media type
is one of image/jpeg, image/png, image/webp and its byte length is at
most 10 MiB; a file failing either check makes the selection handler set
an error message and leave the stored file unchanged, so no conversion
request can be made for it. -/
theorem claim_C1_validation
    (f : FileMeta) :
    (validateFile f = none ↔
        (f.type ∈ allowedTypes ∧ f.size ≤ 10 * 1024 * 1024)) ∧
    (∀ (s : AppState) (msg u : String), validateFile f = some msg →
        (handleFileSelect s (some f) u).file = s.file ∧
        (handleFileSelect s (some f) u).error = msg) := by
  constructor
  · simp only [validateFile, maxSize, List.contains, List.elem_iff]
    by_cases hT : f.type ∈ allowedTypes
    · by_cases hS : 10 * 1024 * 1024 < f.size
      · simp [hT, hS]
      · simp [hT, hS]
        omega
    · simp [hT]
  · intro s msg u hmsg
    simp [handleFileSelect, hmsg]

/-- Closed witness for `claim_C1_validation` at a concrete invalid file. -/
theorem claim_C1_validation_witness :
    (handleFileSelect
        ⟨none, "", "", false, ""⟩
        (some ⟨"image/gif", 5⟩) "u").file = none ∧
    (handleFileSelect
        ⟨none, "", "", false, ""⟩
        (some ⟨"image/gif", 5⟩) "u").error =
      "Please choose a JPG, PNG, or WEBP image." := by
  have h := (claim_C1_validation ⟨"image/gif", 5⟩).2
    ⟨none, "", "", false, ""⟩
    "Please choose a JPG, PNG, or WEBP image." "u" (by decide)
  exact h

/-- C8: a selected file that fails validation only sets the error
message: the resulting state equals the old state with just the error
field replaced, so file, preview URL, result URL and loading flag are
untouched. -/
theorem claim_C8_rejected_frame
    (s : AppState) (f : FileMeta) (msg u : String)
    (h : validateFile f = some msg) :
    handleFileSelect s (some f) u = { s with error := msg } := by
  simp [handleFileSelect, h]

/-- Closed witness for `claim_C8_rejected_frame`. -/
theorem claim_C8_rejected_frame_witness :
    handleFileSelect
        ⟨some ⟨"image/png", 7⟩, "p", "r", false, ""⟩
        (some ⟨"text/plain", 5⟩) "u" =
      { file := some ⟨"image/png", 7⟩, previewURL := "p", resultURL := "r",
        loading := false,
        error := "Please choose a JPG, PNG, or WEBP image." } :=
  claim_C8_rejected_frame
    ⟨some ⟨"image/png", 7⟩, "p", "r", false, ""⟩
    ⟨"text/plain", 5⟩
    "Please choose a JPG, PNG, or WEBP image." "u" (by decide)

/-- C9: invoking convert with no file selected is a no-op: the state is
returned unchanged and no network request is issued. -/
theorem claim_C9_no_file_noop
    (s : AppState) (outcome : FetchOutcome) (h : s.file = none) :
    onConvert s outcome = (s, false) := by
  simp [onConvert, h]

/-- Closed witness for `claim_C9_no_file_noop`. -/
theorem claim_C9_no_file_noop_witness :
    onConvert ⟨none, "p", "r", true, "e"⟩ (.ok "blob") =
      (⟨none, "p", "r", true, "e"⟩, false) :=
  claim_C9_no_file_noop ⟨none, "p", "r", true, "e"⟩ (.ok "blob") rfl

/-- C10: a successful file selection clears the error message and the
previous result URL, stores the new file and sets a fresh preview URL
for it, so a stale sketch result never survives a new selection. -/
theorem claim_C10_fresh_selection
    (s : AppState) (f : FileMeta) (u : String)
    (h : validateFile f = none) :
    handleFileSelect s (some f) u =
      { s with error := "", file := some f, previewURL := u,
               resultURL := "" } := by
  simp [handleFileSelect, h]

/-- Closed witness for `claim_C10_fresh_selection`. -/
theorem claim_C10_fresh_selection_witness :
    handleFileSelect
        ⟨none, "", "old-result", false, "old-error"⟩
        (some ⟨"image/png", 1000⟩) "fresh" =
      { file := some ⟨"image/png", 1000⟩, previewURL := "fresh",
        resultURL := "", loading := false, error := "" } :=
  claim_C10_fresh_selection
    ⟨none, "", "old-result", false, "old-error"⟩
    ⟨"image/png", 1000⟩ "fresh" (by decide)

/-!
Part 2: the SketchPipeline. The FastAPI/OpenCV backend source is not in
the repository snapshot (only the client shell and the project
documentation are), so each definition below is modelled from the spec's
description of the pipeline and says so in its doc comment. Pixel
channels are bytes, embedded as `Nat` with explicit clamping to 255.
-/

/-- One RGB pixel: red, green and blue channel bytes. -/
abbrev Rgb := Nat × Nat × Nat

/-- Modelled from the spec: a DecodedRaster — a 2-D grid of RGB pixels
with its width and height. -/
structure Raster where
  width : Nat
  height : Nat
  px : List (List Rgb)
deriving DecidableEq, Repr

/-- Modelled from the spec: a single-intensity-channel raster
(GrayscaleRaster / SketchRaster). -/
structure GrayRaster where
  width : Nat
  height : Nat
  px : List (List Nat)
deriving DecidableEq, Repr

/-- Modelled from the spec: the fixed maximum dimension for size
normalization ("reasonable default: 1600 px on the longer side"). -/
def maxDim : Nat := 1600

/-- Modelled from the spec: output dimensions of the size-normalization
step. Within the cap the dimensions pass through unchanged; otherwise
the longer side becomes `maxDim` and the shorter side is scaled to
preserve the aspect ratio, rounded to the nearest pixel. -/
def normalizeSize (w h : Nat) : Nat × Nat :=
  if w ≤ maxDim ∧ h ≤ maxDim then (w, h)
  else if h ≤ w then (maxDim, (2 * h * maxDim + w) / (2 * w))
  else ((2 * w * maxDim + h) / (2 * h), maxDim)

/-- Pixel lookup with out-of-range reads answering black. -/
def getPx (p : List (List Rgb)) (y x : Nat) : Rgb :=
  (p.getD y []).getD x (0, 0, 0)

/-- Modelled from the spec: area-average of the source block
`[x0, x1) × [y0, y1)` of a raster, per channel, rounded to nearest. -/
def blockAvg (p : List (List Rgb)) (x0 x1 y0 y1 : Nat) : Rgb :=
  let pts := ((List.range (y1 - y0)).map fun dy =>
    (List.range (x1 - x0)).map fun dx => getPx p (y0 + dy) (x0 + dx)).flatten
  let n := pts.length
  if n = 0 then (0, 0, 0)
  else
    ((pts.foldl (fun a q => a + q.1) 0 + n / 2) / n,
     (pts.foldl (fun a q => a + q.2.1) 0 + n / 2) / n,
     (pts.foldl (fun a q => a + q.2.2) 0 + n / 2) / n)

/-- Modelled from the spec: downscaling by area-averaging ("a
high-quality resampling filter (area-averaging or equivalent smooth
interpolation)"): every output pixel averages its source block. -/
def resizeArea (r : Raster) (w2 h2 : Nat) : Raster :=
  ⟨w2, h2,
    (List.range h2).map fun y => (List.range w2).map fun x =>
      blockAvg r.px
        (x * r.width / w2) (max (x * r.width / w2 + 1) ((x + 1) * r.width / w2))
        (y * r.height / h2) (max (y * r.height / h2 + 1) ((y + 1) * r.height / h2))⟩

/-- Modelled from the spec: step 2, size normalization. An image within
bounds passes through unchanged; otherwise it is downscaled to the
`normalizeSize` dimensions by area-averaging. -/
def normalizeRaster (r : Raster) : Raster :=
  if r.width ≤ maxDim ∧ r.height ≤ maxDim then r
  else resizeArea r (normalizeSize r.width r.height).1 (normalizeSize r.width r.height).2

/-- Modelled from the spec: the fixed ITU-R BT.601 luma weighting of one
RGB pixel, rounded to nearest and clamped into the 0–255 range. -/
def luma (c : Rgb) : Nat :=
  min 255 ((299 * c.1 + 587 * c.2.1 + 114 * c.2.2 + 500) / 1000)

/-- Modelled from the spec: step 3, grayscale conversion by the fixed
luma weighting applied to every pixel. -/
def grayscaleOf (r : Raster) : GrayRaster :=
  ⟨r.width, r.height, r.px.map (List.map luma)⟩

/-- Modelled from the spec: step 4, inversion — every pixel intensity
`v` becomes `255 - v`. -/
def invertGray (g : GrayRaster) : GrayRaster :=
  { g with px := g.px.map (List.map (fun v => 255 - v)) }

/-- Index clamped into `[0, n)`, for edge-replicating reads. -/
def clampIdx (i : Int) (n : Nat) : Nat :=
  if i < 0 then 0 else min i.toNat (n - 1)

/-- Row read with edge replication. -/
def edgeGet (row : List Nat) (i : Int) : Nat :=
  row.getD (clampIdx i row.length) 0

/-- Modelled from the spec: one pass of the fixed Gaussian kernel
(binomial weights 1 4 6 4 1, total 16) along a row, edges replicated,
rounded to nearest. -/
def blurRow (row : List Nat) : List Nat :=
  (List.range row.length).map fun x =>
    (edgeGet row ((x : Int) - 2) + 4 * edgeGet row ((x : Int) - 1)
      + 6 * edgeGet row (x : Int)
      + 4 * edgeGet row ((x : Int) + 1) + edgeGet row ((x : Int) + 2) + 8) / 16

/-- Modelled from the spec: step 5, the fixed-kernel Gaussian blur,
applied separably: horizontally along each row, then vertically via
transposition. -/
def gaussianBlur (g : GrayRaster) : GrayRaster :=
  { g with px := ((g.px.map blurRow).transpose.map blurRow).transpose }

/-- Modelled from the spec: the color-dodge formula on one pixel pair —
base value `b`, blend value `d`: 255 when `d = 255`, otherwise
`b * 255 / (255 - d)` clamped into the 0–255 range (the lower clamp is
structural: the quotient of naturals is never negative). -/
def dodge (b d : Nat) : Nat :=
  if d = 255 then 255 else min 255 (b * 255 / (255 - d))

/-- Modelled from the spec: step 6, the per-pixel color-dodge blend of
the grayscale base with the blurred-inverted blend layer. -/
def dodgeBlend (base blend : GrayRaster) : GrayRaster :=
  ⟨base.width, base.height, List.zipWith (List.zipWith dodge) base.px blend.px⟩

/-- Modelled from the spec: steps 2–6 composed — the SketchRaster a
decoded raster is transformed into. -/
def sketchOf (r : Raster) : GrayRaster :=
  let g := grayscaleOf (normalizeRaster r)
  dodgeBlend g (gaussianBlur (invertGray g))

/-- Modelled from the spec: the two pipeline error kinds. -/
inductive SketchError where
  | DecodeError
  | EncodeError
deriving DecidableEq, Repr

/-- Modelled from the spec: step 1, decoding. The real JPEG/PNG/WEBP
decoders are not in the snapshot; the decoder is modelled on a raw
raster wire format — width, height, then `3 * width * height` channel
bytes — and fails (returns `none`, i.e. DecodeError) on corrupt data
(wrong length or out-of-range byte) and on zero-dimension images. -/
def decodeImage (bytes : List Nat) : Option Raster :=
  match bytes with
  | w :: h :: rest =>
    if w = 0 ∨ h = 0 then none
    else if rest.length = 3 * w * h ∧ rest.all (· ≤ 255) then
      some ⟨w, h,
        (List.range h).map fun y => (List.range w).map fun x =>
          (rest.getD (3 * (y * w + x)) 0,
           rest.getD (3 * (y * w + x) + 1) 0,
           rest.getD (3 * (y * w + x) + 2) 0)⟩
    else none
  | _ => none

/-- Modelled from the spec: step 7, the PNG encoder as a deterministic
lossless serialization of the single-channel raster (width, height,
then the pixel rows); it is total on rasters, so EncodeError — "should
not normally occur for well-formed rasters" — never arises. -/
def encodePNG (g : GrayRaster) : List Nat :=
  g.width :: g.height :: g.px.flatten

/-- Modelled from the spec: the pipeline contract
`convert(bytes) -> PNG bytes`, raising DecodeError when the bytes do
not parse. -/
def convert (bytes : List Nat) : Except SketchError (List Nat) :=
  match decodeImage bytes with
  | none => .error .DecodeError
  | some r => .ok (encodePNG (sketchOf r))

/-- A single-channel raster whose every pixel lies in the byte range. -/
def grayInRange (g : GrayRaster) : Prop :=
  ∀ row ∈ g.px, ∀ v ∈ row, 0 ≤ v ∧ v ≤ 255

/-- The dodge formula never exceeds the byte range. -/
theorem dodge_le (b d : Nat) : dodge b d ≤ 255 := by
  unfold dodge
  split
  · exact le_refl _
  · exact min_le_left _ _

/-- Every element produced by a `zipWith` is an image of the function. -/
theorem exists_of_mem_zipWith {α β γ : Type} {f : α → β → γ} :
    ∀ {as : List α} {bs : List β} {c : γ},
      c ∈ List.zipWith f as bs → ∃ a b, c = f a b := by
  intro as
  induction as with
  | nil => intro bs c hc; simp at hc
  | cons a t ih =>
    intro bs c hc
    cases bs with
    | nil => simp at hc
    | cons b tb =>
      simp only [List.zipWith_cons_cons, List.mem_cons] at hc
      rcases hc with rfl | hc
      · exact ⟨a, b, rfl⟩
      · exact ih hc

/-- The grayscale step always lands in the byte range, thanks to the
clamp inside `luma`. -/
theorem grayscale_inRange (r : Raster) : grayInRange (grayscaleOf r) := by
  intro row hrow v hv
  simp only [grayscaleOf, List.mem_map] at hrow
  obtain ⟨row0, _, rfl⟩ := hrow
  simp only [List.mem_map] at hv
  obtain ⟨c, _, rfl⟩ := hv
  exact ⟨Nat.zero_le _, min_le_left _ _⟩

/-- The dodge blend always lands in the byte range, whatever the two
input layers hold. -/
theorem dodgeBlend_inRange (base blend : GrayRaster) :
    grayInRange (dodgeBlend base blend) := by
  intro row hrow v hv
  refine ⟨Nat.zero_le _, ?_⟩
  obtain ⟨ra, rb, rfl⟩ := exists_of_mem_zipWith hrow
  obtain ⟨a, b, rfl⟩ := exists_of_mem_zipWith hv
  exact dodge_le a b

/-- C2: the color-dodge blend step computes 255 when the blend value is
255, and otherwise computes clamp(b * 255 / (255 - d), 0, 255); the
divisor 255 - d is then nonzero. -/
theorem claim_C2_dodge_formula (b d : Nat) (hb : b ≤ 255) (hd : d ≤ 255) :
    (d = 255 → dodge b d = 255) ∧
    (d < 255 →
      ((255 : Int) - d ≠ 0 ∧
        ((dodge b d : Nat) : Int) =
          max 0 (min 255 ((b : Int) * 255 / ((255 : Int) - d))))) := by
  constructor
  · intro h
    simp [dodge, h]
  · intro h
    refine ⟨by omega, ?_⟩
    have hne : d ≠ 255 := by omega
    have hge : (0 : Int) ≤ min 255 ((b : Int) * 255 / ((255 : Int) - d)) := by
      apply le_min
      · norm_num
      · apply Int.ediv_nonneg
        · positivity
        · omega
    rw [max_eq_right hge]
    simp only [dodge, if_neg hne]
    push_cast [Int.ofNat_ediv, Nat.cast_sub hd]
    ring_nf

/-- Closed witness for `claim_C2_dodge_formula` at base 100, blend 100. -/
theorem claim_C2_dodge_formula_witness :
    (255 : Int) - ((100 : Nat) : Int) ≠ 0 ∧
    ((dodge 100 100 : Nat) : Int) =
      max 0 (min 255 (((100 : Nat) : Int) * 255 / ((255 : Int) - (100 : Nat)))) :=
  (claim_C2_dodge_formula 100 100 (by decide) (by decide)).2 (by decide)

/-- C3: every pixel of the GrayscaleRaster produced by the grayscale
step and every pixel of the SketchRaster produced by the dodge step lies
in [0, 255]; the d = 255 branch of the dodge formula is covered since
`dodge` is bounded on all inputs. -/
theorem claim_C3_value_range (r : Raster) :
    grayInRange (grayscaleOf (normalizeRaster r)) ∧
    grayInRange (sketchOf r) := by
  refine ⟨grayscale_inRange _, ?_⟩
  show grayInRange
    (dodgeBlend (grayscaleOf (normalizeRaster r))
      (gaussianBlur (invertGray (grayscaleOf (normalizeRaster r)))))
  exact dodgeBlend_inRange _ _

/-- One inversion pass undoes another on a byte-range row. -/
theorem map_invert_invert (l : List Nat) (hl : ∀ v ∈ l, v ≤ 255) :
    (l.map fun v => 255 - v).map (fun v => 255 - v) = l := by
  induction l with
  | nil => rfl
  | cons a t ih =>
    simp only [List.map_cons, List.cons.injEq]
    refine ⟨?_, ih fun v hv => hl v (List.mem_cons_of_mem a hv)⟩
    have ha : a ≤ 255 := hl a (List.mem_cons_self a t)
    omega

/-- C6: inversion maps every intensity v to 255 - v and is an
involution: inverting twice reproduces the grayscale raster exactly. -/
theorem claim_C6_invert_involution (g : GrayRaster) (hg : grayInRange g) :
    invertGray (invertGray g) = g := by
  cases g with
  | mk w h px =>
    simp only [invertGray, GrayRaster.mk.injEq, true_and]
    induction px with
    | nil => rfl
    | cons row t ih =>
      simp only [List.map_cons, List.cons.injEq]
      constructor
      · exact map_invert_invert row fun v hv =>
          (hg row (List.mem_cons_self row t) v hv).2
      · exact ih fun r hr v hv => hg r (List.mem_cons_of_mem row hr) v hv

/-- Closed witness for `claim_C6_invert_involution`. -/
theorem claim_C6_invert_involution_witness :
    invertGray (invertGray ⟨2, 1, [[7, 200]]⟩) = (⟨2, 1, [[7, 200]]⟩ : GrayRaster) :=
  claim_C6_invert_involution ⟨2, 1, [[7, 200]]⟩ (by
    intro row hrow v hv
    simp at hrow
    subst hrow
    simp at hv
    rcases hv with rfl | rfl <;> omega)

/-- Rounding a scaled side to the nearest pixel keeps the aspect ratio
within one pixel: the rounded value q of a * M / b satisfies
|q * b - a * M| ≤ b. -/
theorem roundDiv_aspect (a b M : Nat) (hb : 0 < b) :
    |(((2 * a * M + b) / (2 * b) : Nat) : Int) * b - (a : Int) * M| ≤ b := by
  have hmod := Nat.div_add_mod (2 * a * M + b) (2 * b)
  have hlt : (2 * a * M + b) % (2 * b) < 2 * b := Nat.mod_lt _ (by omega)
  have hZ : 2 * (b : Int) * (((2 * a * M + b) / (2 * b) : Nat) : Int)
        + (((2 * a * M + b) % (2 * b) : Nat) : Int)
      = 2 * (a : Int) * M + b := by exact_mod_cast hmod
  have hltZ : (((2 * a * M + b) % (2 * b) : Nat) : Int) < 2 * b := by
    exact_mod_cast hlt
  have h0Z : (0 : Int) ≤ (((2 * a * M + b) % (2 * b) : Nat) : Int) :=
    Int.ofNat_nonneg _
  have hbZ : (0 : Int) < b := by exact_mod_cast hb
  rw [abs_le]
  constructor <;> nlinarith [hZ, hltZ, h0Z, hbZ]

/-- The scaled shorter side never exceeds the cap. -/
theorem scaled_side_le (a b : Nat) (hab : a ≤ b) (hb : 0 < b) :
    (2 * a * maxDim + b) / (2 * b) ≤ maxDim := by
  have h1 : (2 * a * maxDim + b) ≤ (2 * b) * maxDim + b := by
    have : 2 * a * maxDim ≤ 2 * b * maxDim :=
      Nat.mul_le_mul_right _ (Nat.mul_le_mul_left _ hab)
    omega
  calc (2 * a * maxDim + b) / (2 * b)
      ≤ ((2 * b) * maxDim + b) / (2 * b) := Nat.div_le_div_right h1
    _ = maxDim + b / (2 * b) := Nat.mul_add_div (by omega) _ _
    _ = maxDim := by
        have : b / (2 * b) = 0 := Nat.div_eq_of_lt (by omega)
        omega

/-- C4: if both dimensions are at most the configured maximum the
size-normalization step returns the raster unchanged; otherwise the
output dimensions are those of `normalizeSize`, the longer output
dimension equals the maximum, and the aspect ratio matches the input's
to within one pixel of rounding. -/
theorem claim_C4_normalize_dims (r : Raster)
    (hw : 0 < r.width) (hh : 0 < r.height) :
    (r.width ≤ maxDim ∧ r.height ≤ maxDim → normalizeRaster r = r) ∧
    ((normalizeRaster r).width, (normalizeRaster r).height)
      = normalizeSize r.width r.height ∧
    (maxDim < max r.width r.height →
      max (normalizeRaster r).width (normalizeRaster r).height = maxDim ∧
      |((normalizeRaster r).height : Int) * r.width
          - (r.height : Int) * (normalizeRaster r).width|
        ≤ max r.width r.height) := by
  by_cases hc : r.width ≤ maxDim ∧ r.height ≤ maxDim
  · refine ⟨fun _ => by simp [normalizeRaster, hc], ?_, ?_⟩
    · simp [normalizeRaster, normalizeSize, hc]
    · intro hm
      rw [lt_max_iff] at hm
      omega
  · refine ⟨fun h => absurd h hc, ?_, ?_⟩
    · simp [normalizeRaster, hc, resizeArea]
    · intro _
      by_cases hcase : r.height ≤ r.width
      · have hwM : maxDim < r.width := by
          rcases Nat.lt_or_ge maxDim r.width with h | h
          · exact h
          · exact absurd ⟨h, le_trans hcase h⟩ hc
        have hdims :
            (normalizeRaster r).width = maxDim ∧
            (normalizeRaster r).height
              = (2 * r.height * maxDim + r.width) / (2 * r.width) := by
          simp [normalizeRaster, normalizeSize, hc, hcase, resizeArea]
        rw [hdims.1, hdims.2]
        have hle := scaled_side_le r.height r.width hcase hw
        refine ⟨by omega, ?_⟩
        have habs := roundDiv_aspect r.height r.width maxDim hw
        have hmax : max r.width r.height = r.width := max_eq_left hcase
        rw [hmax]
        calc |((((2 * r.height * maxDim + r.width) / (2 * r.width) : Nat) : Int))
                * r.width - (r.height : Int) * maxDim|
            ≤ (r.width : Int) := habs
          _ ≤ (r.width : Int) := le_refl _
      · have hcase2 : r.width ≤ r.height := le_of_not_le hcase
        have hhM : maxDim < r.height := by
          rcases Nat.lt_or_ge maxDim r.height with h | h
          · exact h
          · exact absurd ⟨le_trans hcase2 h, h⟩ hc
        have hdims :
            (normalizeRaster r).width
              = (2 * r.width * maxDim + r.height) / (2 * r.height) ∧
            (normalizeRaster r).height = maxDim := by
          simp [normalizeRaster, normalizeSize, hc, hcase, resizeArea]
        rw [hdims.1, hdims.2]
        have hle := scaled_side_le r.width r.height hcase2 hh
        refine ⟨by omega, ?_⟩
        have habs := roundDiv_aspect r.width r.height maxDim hh
        have hmax : max r.width r.height = r.height := max_eq_right hcase2
        rw [hmax]
        have hswap :
            ((maxDim : Int) * r.width
                - (r.height : Int)
                  * (((2 * r.width * maxDim + r.height) / (2 * r.height) : Nat) : Int))
            = -((((2 * r.width * maxDim + r.height) / (2 * r.height) : Nat) : Int)
                  * r.height - (r.width : Int) * maxDim) := by
          push_cast
          ring
        rw [hswap, abs_neg]
        exact habs

/-- Closed witness for `claim_C4_normalize_dims`: an in-bounds raster
passes through unchanged. -/
theorem claim_C4_normalize_dims_witness :
    normalizeRaster ⟨2, 1, [[(0, 0, 0), (0, 0, 0)]]⟩
      = (⟨2, 1, [[(0, 0, 0), (0, 0, 0)]]⟩ : Raster) :=
  (claim_C4_normalize_dims ⟨2, 1, [[(0, 0, 0), (0, 0, 0)]]⟩
    (by decide) (by decide)).1 ⟨by decide, by decide⟩

/-- C5: the pipeline is a pure function of the input bytes and the fixed
constants: two invocations on identical input bytes produce identical
output byte sequences. -/
theorem claim_C5_determinism (b1 b2 : List Nat) (h : b1 = b2) :
    convert b1 = convert b2 := by
  rw [h]

/-- Closed witness for `claim_C5_determinism` at a concrete 1 by 1 image. -/
theorem claim_C5_determinism_witness :
    convert [1, 1, 10, 20, 30] = convert [1, 1, 10, 20, 30] :=
  claim_C5_determinism [1, 1, 10, 20, 30] [1, 1, 10, 20, 30] rfl

/-- C7: on every input byte sequence the pipeline either returns the
complete encoding of the fully transformed sketch raster or fails with
DecodeError (in particular on zero-dimension images), and any error it
returns is one of the two declared kinds — never a partial output. -/
theorem claim_C7_total_contract (bytes : List Nat) :
    ((decodeImage bytes = none ∧
        convert bytes = Except.error SketchError.DecodeError) ∨
      (∃ r, decodeImage bytes = some r ∧
        convert bytes = Except.ok (encodePNG (sketchOf r)))) ∧
    (∀ w h rest, bytes = w :: h :: rest → w = 0 ∨ h = 0 →
      convert bytes = Except.error SketchError.DecodeError) ∧
    (∀ e, convert bytes = Except.error e →
      e = SketchError.DecodeError ∨ e = SketchError.EncodeError) := by
  refine ⟨?_, ?_, ?_⟩
  · cases hd : decodeImage bytes with
    | none => exact Or.inl ⟨rfl, by simp [convert, hd]⟩
    | some r => exact Or.inr ⟨r, rfl, by simp [convert, hd]⟩
  · rintro w h rest rfl hz
    have hnone : decodeImage (w :: h :: rest) = none := by
      simp only [decodeImage]
      rw [if_pos hz]
    simp [convert, hnone]
  · intro e _
    cases e
    · exact Or.inl rfl
    · exact Or.inr rfl

/-- Closed witness for `claim_C7_total_contract` at a zero-width input. -/
theorem claim_C7_total_contract_witness :
    convert [0, 5, 9] = Except.error SketchError.DecodeError :=
  (claim_C7_total_contract [0, 5, 9]).2.1 0 5 [9] rfl (Or.inl rfl)
